import Mathlib

/-
Verification of the rotary buffer framework against its specification.

The only core source file available is `src/rotary/src/io/read.rs`, which
defines the `Read` adapter.  Its trait bounds (`Buf`, `ExactSizeBuf`,
`Channels`, `ReadBuf`) and the collaborators it is used with
(`Channel::tail`, `skip`, `limit`, `copy_remaining`, the write adapter)
live in `rotary-core` / the rest of the crate and are not in the excerpt;
those are modelled from the spec, as marked on each definition.

A channel view is shallowly embedded as a list of samples; machine
`usize` arithmetic is embedded as `Nat`, whose subtraction is exactly
Rust's `usize::saturating_sub`, the only subtraction the source uses.
-/

namespace Rotary

/-- Modelled from the spec: a Channel View is "a borrowed handle into one
channel's sample range of a Buffer", embedded as the list of samples it
exposes. -/
structure Channel where
  data : List Int
deriving DecidableEq

/-- The length of a channel view. -/
def Channel.len (c : Channel) : Nat := c.data.length

/-- Modelled from the spec: `Channel::tail` of rotary-core, which is not
under `src/`.  The spec describes it in two conflicting ways: §4.1 says
`tail(n)` "drops the first n logical elements", while the §8 scenario
(expected destination `[3,1,0,0]`, "matches the documented example
behavior") and the doc test in `src/rotary/src/io/read.rs` lines 11-19
only hold if `tail(n)` keeps the **last** `n` elements — under the
drop-first reading, `Read::channel`, which passes `self.available` to
`tail`, would hand an empty view to the very first copy of the example.
The example behaviour pins the semantics, so `tail n` keeps the last `n`
elements (equivalently: drops the first `len - n`, saturating).  The
literal drop-first reading of §4.1 is kept separately as
`Channel.dropFront` so claims phrased with it can still be stated. -/
def Channel.tail (c : Channel) (n : Nat) : Channel :=
  ⟨c.data.drop (c.data.length - n)⟩

/-- Modelled from the spec: the §4.1 sentence "`tail(n)` returns a view
representing elements `[min(n,L), L)`", i.e. drop the first `n` elements.
This is the wording several claims use; it is named apart from
`Channel.tail` because it is not what the crate's `tail` does. -/
def Channel.dropFront (c : Channel) (n : Nat) : Channel :=
  ⟨c.data.drop n⟩

/-- Shallow embedding of the generic buffer parameter `B` of `Read<B>`:
a record of the capability-trait methods the source calls on it —
`ExactSizeBuf::frames`, `Buf::channels`, `Buf::frames_hint`,
`Channels::channel`.  The exact-size contract ("`channel(i)` views all
have exactly `frames()` length", spec §4.2) is a trait-level guarantee,
stated as a hypothesis where a theorem needs it. -/
structure Buf where
  frames : Nat
  channels : Nat
  frames_hint : Option Nat
  channel : Nat → Channel

/-- The `Read` adapter state, from `src/rotary/src/io/read.rs`:
`struct Read<B> { buf: B, available: usize }`. -/
structure Read where
  buf : Buf
  available : Nat

/-- `Read::new`: `let available = buf.frames(); Self { buf, available }`. -/
def Read.new (buf : Buf) : Read := ⟨buf, buf.frames⟩

/-- `Read::as_ref`: access the underlying buffer. -/
def Read.as_ref (r : Read) : Buf := r.buf

/-- `Read::into_inner`: convert into the underlying buffer. -/
def Read.into_inner (r : Read) : Buf := r.buf

/-- `Read::set_read`: `self.available = self.buf.frames().saturating_sub(read)`. -/
def Read.set_read (r : Read) (read : Nat) : Read :=
  ⟨r.buf, r.buf.frames - read⟩

/-- `ReadBuf::remaining` for `Read`: `self.available`. -/
def Read.remaining (r : Read) : Nat := r.available

/-- `ReadBuf::advance` for `Read`:
`self.available = self.available.saturating_sub(n)`. -/
def Read.advance (r : Read) (n : Nat) : Read :=
  ⟨r.buf, r.available - n⟩

/-- `ExactSizeBuf::frames` for `Read`:
`self.buf.frames().saturating_sub(self.available)`. -/
def Read.frames (r : Read) : Nat := r.buf.frames - r.available

/-- `Buf::frames_hint` for `Read`: `self.buf.frames_hint()`. -/
def Read.frames_hint (r : Read) : Option Nat := r.buf.frames_hint

/-- `Buf::channels` for `Read`: `self.buf.channels()`. -/
def Read.channels (r : Read) : Nat := r.buf.channels

/-- `Channels::channel` for `Read`:
`self.buf.channel(channel).tail(self.available)`. -/
def Read.channel (r : Read) (i : Nat) : Channel :=
  (r.buf.channel i).tail r.available

/-- The mutating operations of the adapter, for stating invariants over
arbitrary operation sequences. -/
inductive ReadOp where
  | advance (n : Nat)
  | set_read (n : Nat)

/-- Apply one adapter operation. -/
def Read.apply (r : Read) (op : ReadOp) : Read :=
  match op with
  | .advance n => r.advance n
  | .set_read n => r.set_read n

/-- Apply a sequence of adapter operations, oldest first. -/
def Read.applyAll (r : Read) (ops : List ReadOp) : Read :=
  ops.foldl Read.apply r

/-- Modelled from the spec: the Write Adapter (§4.3), a "symmetric
structure tracking remaining write capacity, decreasing as frames are
written"; not under `src/`. -/
structure Write where
  buf : Buf
  available : Nat

/-- Modelled from the spec: `new(buffer)` for the write side
"initializes `available = total_capacity`". -/
def Write.new (buf : Buf) : Write := ⟨buf, buf.frames⟩

/-- Modelled from the spec: `remaining()` of the write adapter, the
current unwritten frame count. -/
def Write.remaining (w : Write) : Nat := w.available

/-- Modelled from the spec: `advance(n)` of the write adapter, decreasing
`available` by `n`, saturating at zero. -/
def Write.advance (w : Write) (n : Nat) : Write :=
  ⟨w.buf, w.available - n⟩

/-- Overwrite `src.length` samples of `dst` starting at position `pos`,
leaving the rest untouched: the effect of copying a source channel view
into the front of a destination channel view that excludes the
already-written prefix. -/
def writeAt (dst : Channel) (pos : Nat) (src : List Int) : Channel :=
  ⟨dst.data.take pos ++ src ++ dst.data.drop (pos + src.length)⟩

/-- Modelled from the spec: `copy_remaining` (§4.4), not under `src/`.
Per invocation: `n = min(source.remaining(), destination.remaining())`;
when `n = 0` return immediately with zero frames copied; otherwise copy
exactly `n` samples per channel, over the `min` of the two channel
counts, from the source's channel view (the `Read::channel` view from
`src/`, which excludes consumed frames) into the front of the
destination's unwritten region, then advance both adapters by `n`.
Returns the reported count together with both advanced adapters. -/
def copy_remaining (r : Read) (w : Write) : Nat × Read × Write :=
  if min r.remaining w.remaining = 0 then (0, r, w) else
    (min r.remaining w.remaining,
      r.advance (min r.remaining w.remaining),
      ⟨⟨w.buf.frames, w.buf.channels, w.buf.frames_hint,
          fun i =>
            if i < min r.channels w.buf.channels then
              writeAt (w.buf.channel i) ((w.buf.channel i).len - w.available)
                ((r.channel i).data.take (min r.remaining w.remaining))
            else w.buf.channel i⟩,
        w.available - min r.remaining w.remaining⟩)

/-- Modelled from the spec: the `skip(n)` windowing wrapper (§4.1),
clamping at the frame dimension, per-channel views reflecting the
composed window; not under `src/`. -/
def Buf.skip (b : Buf) (n : Nat) : Buf :=
  ⟨b.frames - n, b.channels, some (b.frames - n),
    fun i => ⟨(b.channel i).data.drop n⟩⟩

/-- Modelled from the spec: the `limit(n)` windowing wrapper (§4.1);
not under `src/`. -/
def Buf.limit (b : Buf) (n : Nat) : Buf :=
  ⟨min n b.frames, b.channels, some (min n b.frames),
    fun i => ⟨(b.channel i).data.take n⟩⟩

/-- A concrete exact-size buffer from explicit per-channel data, standing
for the crate's owned buffers (e.g. `interleaved![..]`), whose logical
view is layout-agnostic per the spec's data model. -/
def mkBuf (cs : List (List Int)) (f : Nat) : Buf :=
  ⟨f, cs.length, some f, fun i => ⟨cs.getD i []⟩⟩

/-- The interleaved linearization of a buffer (`as_slice` of an
interleaved buffer): frame-major order. -/
def asSlice (b : Buf) : List Int :=
  (List.range b.frames).flatMap
    (fun f => (List.range b.channels).map (fun c => (b.channel c).data.getD f 0))

/-- A 1-channel, 2-frame exact-size buffer used as a concrete input. -/
def bufTwo : Buf := mkBuf [[10, 20]] 2

/-- A 1-channel, 4-frame exact-size buffer used as a concrete input. -/
def bufFour : Buf := mkBuf [[1, 2, 3, 4]] 4

/-- The source buffer of the doc example in `read.rs`:
`rotary::interleaved![[1, 2, 3, 4]; 2]`. -/
def exSource : Buf := mkBuf [[1, 2, 3, 4], [1, 2, 3, 4]] 4

/-- The destination of the doc example: a zero-initialized 2-channel
4-frame buffer wrapped as a write adapter (the write half of
`io::ReadWrite::new`). -/
def exDest : Write := Write.new (mkBuf [[0, 0, 0, 0], [0, 0, 0, 0]] 4)

/-- First copy of the doc example:
`io::copy_remaining(io::Read::new((&from).skip(2).limit(1)), &mut to)`. -/
def exCopy1 : Nat × Read × Write :=
  copy_remaining (Read.new ((exSource.skip 2).limit 1)) exDest

/-- Second copy of the doc example:
`io::copy_remaining(io::Read::new((&from).limit(1)), &mut to)`. -/
def exCopy2 : Nat × Read × Write :=
  copy_remaining (Read.new (exSource.limit 1)) exCopy1.2.2

/-- Helper: every state reached from `Read::new b` by `advance` /
`set_read` operations keeps the same underlying buffer and keeps
`available` bounded by the buffer's total frame count. -/
theorem applyAll_buf_available (b : Buf) (ops : List ReadOp) :
    ∀ r : Read, r.buf = b → r.available ≤ b.frames →
      (r.applyAll ops).buf = b ∧ (r.applyAll ops).available ≤ b.frames := by
  induction ops with
  | nil => intro r hb ha; exact ⟨hb, ha⟩
  | cons op ops ih =>
    intro r hb ha
    have hstep : (r.apply op).buf = b ∧ (r.apply op).available ≤ b.frames := by
      cases op with
      | advance n =>
        refine ⟨hb, ?_⟩
        simp only [Read.apply, Read.advance]
        omega
      | set_read n =>
        refine ⟨hb, ?_⟩
        simp only [Read.apply, Read.set_read, hb]
        omega
    have := ih (r.apply op) hstep.1 hstep.2
    simpa [Read.applyAll, List.foldl] using this

/-- C1: the claim states that `frames()` equals `remaining()` in every
reachable state.  The code computes `frames()` as
`self.buf.frames().saturating_sub(self.available)` — the *consumed*
count.  On a fresh adapter over the 2-frame buffer `bufTwo`, `frames()`
is `0` while `remaining()` is `2` — and the channel view handed out has
length `2`, so the code also breaks the exact-size contract that
`channel(i)` views have exactly `frames()` length.  The spec (logical
remaining length) is the intent; the code is a slip. -/
theorem c1_frames_reports_consumed_not_remaining :
    (Read.new bufTwo).frames = 0 ∧ (Read.new bufTwo).remaining = 2 ∧
      ((Read.new bufTwo).channel 0).len = 2 ∧
      (Read.new bufTwo).frames ≠ (Read.new bufTwo).remaining := by
  decide

/-- C2: in every reachable adapter state, `channel(i)` is the underlying
buffer's channel `i` with exactly the consumed frames
(`total - available`) dropped from the front, and the returned view has
length `remaining()`.  The code's `tail(available)` keeps the last
`available` elements, which under the exact-size contract
(`channel(i)` views have length `frames()`) is the same view as dropping
the first `total - available` elements. -/
theorem c2_channel_excludes_consumed (b : Buf) (ops : List ReadOp) (i : Nat)
    (h : (b.channel i).len = b.frames) :
    ((Read.new b).applyAll ops).channel i
        = (b.channel i).dropFront
            (b.frames - ((Read.new b).applyAll ops).available) ∧
      (((Read.new b).applyAll ops).channel i).len
        = ((Read.new b).applyAll ops).remaining := by
  obtain ⟨hb, ha⟩ := applyAll_buf_available b ops (Read.new b) rfl (le_refl _)
  have hlen : (b.channel i).data.length = b.frames := h
  constructor
  · simp only [Read.channel, hb, Channel.tail, Channel.dropFront, hlen]
  · simp only [Read.channel, hb, Channel.tail, Channel.len, Read.remaining,
      List.length_drop, hlen]
    omega

/-- C2 witness: the adapter over `bufTwo` after `advance 1` has consumed
one frame; its channel 0 view is the underlying `[10, 20]` with the first
frame dropped, of length `remaining() = 1`. -/
theorem c2_channel_excludes_consumed_witness :
    ((Read.new bufTwo).applyAll [ReadOp.advance 1]).channel 0
        = (bufTwo.channel 0).dropFront
            (bufTwo.frames
              - ((Read.new bufTwo).applyAll [ReadOp.advance 1]).available) ∧
      (((Read.new bufTwo).applyAll [ReadOp.advance 1]).channel 0).len
        = ((Read.new bufTwo).applyAll [ReadOp.advance 1]).remaining :=
  c2_channel_excludes_consumed bufTwo [ReadOp.advance 1] 0 (by decide)

/-- C3 counterexample: the claim states no operation, including
`set_read`, ever increases `available`.  Over the 4-frame buffer
`bufFour`, after `advance 3` the adapter has `available = 1`; a
subsequent `set_read 0` recomputes `available = 4 - 0 = 4 > 1`. -/
theorem c3_set_read_can_increase_available :
    ((Read.new bufFour).advance 3).available
      < (((Read.new bufFour).advance 3).set_read 0).available := by
  decide

/-- C3 amended: `available` is initialized by `new` to the buffer's total
frame count, `advance` only ever decreases it (saturating at zero), and
while `set_read(n)` can increase it (it recomputes `available` as
`total - n`, saturating), no operation ever pushes `available` above the
underlying buffer's total frame count. -/
theorem c3_available_init_monotone_bounded (b : Buf) (r : Read) (n : Nat) :
    (Read.new b).available = b.frames ∧
      (r.advance n).available ≤ r.available ∧
      (r.set_read n).available ≤ r.buf.frames := by
  refine ⟨rfl, ?_, ?_⟩
  · simp only [Read.advance]
    omega
  · simp only [Read.set_read]
    omega

/-- C4: after `Read::new(B)` over a buffer with exact frame count `F`,
`remaining() = F`, and after a subsequent `advance(k)` — for any `k`,
including `k > F` — `remaining() = F.saturating_sub(k)` (`Nat`
subtraction is exactly `usize::saturating_sub`); both operations are
total, so advance never underflows or panics. -/
theorem c4_new_then_advance_remaining (b : Buf) (k : Nat) :
    (Read.new b).remaining = b.frames ∧
      ((Read.new b).advance k).remaining = b.frames - k :=
  ⟨rfl, rfl⟩

/-- C5: after `set_read(n)` the adapter's `remaining()` equals the
underlying total saturating-minus `n`, regardless of the previous value
of `available` (the statement quantifies over every adapter state `r`). -/
theorem c5_set_read_absolute (r : Read) (n : Nat) :
    (r.set_read n).remaining = r.buf.frames - n := rfl

/-- C6 counterexample: the claim states `tail(n)` yields a view of length
`max(0, L - n)` with `tail(0)` the identity.  The crate's `tail` (whose
keep-the-last-`n` semantics is pinned by the doc example in `read.rs` and
the spec's §8 scenario) gives `tail(0)` on the 2-element view `[10, 20]`
an *empty* result, not a length-2 identity. -/
theorem c6_tail_claim_fails :
    ¬ (((Channel.mk [10, 20]).tail 0).len = max 0 (2 - 0) ∧
        (Channel.mk [10, 20]).tail 0 = Channel.mk [10, 20]) := by
  decide

/-- C6 amended: for the crate's keep-last-`n` `tail`: `tail(n)` yields a
view of length `min(n, L)`; `tail(L)` is the identity; `tail(0)` yields
an empty view; and `tail(n1).tail(n2) = tail(min(n1, n2))`; `tail` is
total, so no input panics. -/
theorem c6_tail_algebra (c : Channel) (n n1 n2 : Nat) :
    (c.tail n).len = min n c.len ∧
      c.tail c.len = c ∧
      (c.tail 0).len = 0 ∧
      (c.tail n1).tail n2 = c.tail (min n1 n2) := by
  obtain ⟨d⟩ := c
  refine ⟨?_, ?_, ?_, ?_⟩
  · simp only [Channel.tail, Channel.len, List.length_drop]
    omega
  · simp [Channel.tail, Channel.len]
  · simp only [Channel.tail, Channel.len, List.length_drop]
    omega
  · simp only [Channel.tail, Channel.len, List.length_drop, List.drop_drop]
    have hidx : d.length - n1 + (d.length - (d.length - n1) - n2)
        = d.length - min n1 n2 := by omega
    rw [hidx]

/-- C7: the doc example of `read.rs` — copying `skip(2).limit(1)` of the
2-channel buffer `[[1,2,3,4]; 2]` into a zeroed 2-channel 4-frame
destination, then `limit(1)` of the same source into the remaining
space — copies one frame per call and leaves each destination channel as
`[3, 1, 0, 0]`, i.e. interleaved `[3, 3, 1, 1, 0, 0, 0, 0]`. -/
theorem c7_doc_example :
    exCopy1.1 = 1 ∧ exCopy2.1 = 1 ∧
      (exCopy2.2.2.buf.channel 0).data = [3, 1, 0, 0] ∧
      (exCopy2.2.2.buf.channel 1).data = [3, 1, 0, 0] ∧
      asSlice exCopy2.2.2.buf = [3, 3, 1, 1, 0, 0, 0, 0] := by
  decide

/-- C8: one `copy_remaining` call reports
`n = min(source.remaining(), destination.remaining())` computed at entry,
and afterwards each side's `remaining()` has decreased by exactly the
reported `n` (stated additively, so the decrease is exact, not merely
saturating); when `n = 0` the call returns zero frames copied and both
adapters unchanged — a normal result, not an error. -/
theorem c8_copy_remaining_accounting (r : Read) (w : Write) :
    (copy_remaining r w).1 = min r.remaining w.remaining ∧
      (copy_remaining r w).2.1.remaining + (copy_remaining r w).1
        = r.remaining ∧
      (copy_remaining r w).2.2.remaining + (copy_remaining r w).1
        = w.remaining := by
  have h1 : min r.remaining w.remaining ≤ r.remaining := Nat.min_le_left _ _
  have h2 : min r.remaining w.remaining ≤ w.remaining := Nat.min_le_right _ _
  by_cases h : min r.remaining w.remaining = 0
  · rw [copy_remaining, if_pos h]
    exact ⟨h.symm, by simp, by simp⟩
  · rw [copy_remaining, if_neg h]
    refine ⟨rfl, ?_, ?_⟩
    · simp only [Read.remaining, Read.advance] at *
      omega
    · simp only [Write.remaining, Read.remaining] at *
      omega

/-- C9: `advance` and `set_read` modify only the `available` counter —
the wrapped buffer observed through `as_ref` and `into_inner` is
unchanged — and `channels()` / `frames_hint()` always delegate to the
underlying buffer, unaffected by consumption state. -/
theorem c9_mutators_only_touch_available (r : Read) (n m : Nat) :
    (r.advance n).as_ref = r.as_ref ∧
      (r.advance n).into_inner = r.into_inner ∧
      (r.set_read m).as_ref = r.as_ref ∧
      (r.set_read m).into_inner = r.into_inner ∧
      (r.advance n).channels = r.buf.channels ∧
      (r.advance n).frames_hint = r.buf.frames_hint ∧
      (r.set_read m).channels = r.buf.channels ∧
      (r.set_read m).frames_hint = r.buf.frames_hint ∧
      r.channels = r.buf.channels ∧
      r.frames_hint = r.buf.frames_hint :=
  ⟨rfl, rfl, rfl, rfl, rfl, rfl, rfl, rfl, rfl, rfl⟩

/-- C10: starting from `Read::new b` (the underlying buffer, a plain
value in this embedding, keeps its frame count fixed), every sequence of
`advance` and `set_read` operations preserves
`remaining() ≤ b.frames`. -/
theorem c10_remaining_le_total (b : Buf) (ops : List ReadOp) :
    ((Read.new b).applyAll ops).remaining ≤ b.frames :=
  (applyAll_buf_available b ops (Read.new b) rfl (le_refl _)).2

end Rotary
